import Mathlib

/-!
Shallow embedding of the OBServe audio core (src-tauri/src): the sidechain
ducking controller (ducking.rs), sample extraction and spectrum bin
post-processing (spectrum.rs), silent-packet handling (spectrum.rs,
narration_capture.rs), and the peak-meter noise floor (audio_monitor.rs).
Machine floats are modelled as exact rationals (for the executable state
machines and decoders) or reals (for the logarithmic dB conversions).
-/

/-! ## Ducking controller (ducking.rs) -/

/-- The six controller states of ducking.rs (enum DuckingStatus). -/
inductive DuckingStatus where
  | Disabled
  | Idle
  | Attacking
  | Ducking
  | Holding
  | Releasing
deriving DecidableEq, Repr

/-- DuckingConfig of ducking.rs; threshold and duck amount in dB, times in ms. -/
structure DuckingConfig where
  enabled : Bool
  triggerSource : String
  targetSource : String
  thresholdDb : ℚ
  duckAmountDb : ℚ
  attackMs : ℕ
  holdMs : ℕ
  releaseMs : ℕ
deriving DecidableEq, Repr

/-- The mutable loop-local state of start_ducking_loop (ducking.rs lines 61-64):
current status, the cached original volume, the instant the current state was
entered, and the instant of the controller's own last volume write.
Instants are milliseconds as naturals. -/
structure LoopState where
  status : DuckingStatus
  originalVolumeDb : Option ℚ
  stateEnteredAt : ℕ
  lastSelfSet : Option ℕ
deriving DecidableEq, Repr

/-- Environment for one volume read: the obs_state mirror of the target's
volume_db and the remote GetInputVolume response (none models a failed
request or a missing field). -/
structure VolEnv where
  stateVolume : Option ℚ
  remoteVolume : Option ℚ
deriving DecidableEq, Repr

/-- A SetInputVolume request issued to the remote application. -/
inductive VolCmd where
  | setInputVolume (target : String) (volumeDb : ℚ)
deriving DecidableEq, Repr

/-- get_current_volume of ducking.rs: if the controller wrote a volume less
than 500 ms ago, serve the read from the locally mirrored obs_state value and
issue no remote request (second component false); otherwise send a remote
GetInputVolume (second component true). -/
def get_current_volume (env : VolEnv) (lastSelfSet : Option ℕ) (now : ℕ) :
    Option ℚ × Bool :=
  match lastSelfSet with
  | some ts => if now - ts < 500 then (env.stateVolume, false) else (env.remoteVolume, true)
  | none => (env.remoteVolume, true)

/-- apply_volume of ducking.rs: send SetInputVolume and record the write
instant in last_self_set. -/
def apply_volume (target : String) (volumeDb : ℚ) (now : ℕ) : VolCmd × Option ℕ :=
  (VolCmd.setInputVolume target volumeDb, some now)

/-- restore_volume of ducking.rs simply delegates to apply_volume. -/
def restore_volume (target : String) (volumeDb : ℚ) (now : ℕ) : VolCmd × Option ℕ :=
  apply_volume target volumeDb now

/-- Per-tick input to the ducking loop body: the configuration read this tick,
the resolved trigger device (none when the trigger source cannot be resolved),
the trigger peak already converted to dB (the peak_db of ducking.rs lines
121-125), the volume-read environment, and the tick instant in ms. -/
structure TickInput where
  cfg : DuckingConfig
  triggerDevice : Option String
  peakDb : ℚ
  env : VolEnv
  now : ℕ
deriving DecidableEq, Repr

/-- One iteration of the loop body of start_ducking_loop (ducking.rs lines
66-203), returning the updated loop state and the SetInputVolume commands
issued during the tick. -/
def ducking_tick (s : LoopState) (inp : TickInput) : LoopState × List VolCmd :=
  let cfg := inp.cfg
  if ¬cfg.enabled ∨ cfg.triggerSource = "" ∨ cfg.targetSource = "" then
    if s.status = DuckingStatus.Disabled then (s, [])
    else
      match s.originalVolumeDb with
      | some orig =>
          let r := restore_volume cfg.targetSource orig inp.now
          ({ status := DuckingStatus.Disabled
             originalVolumeDb := none
             stateEnteredAt := s.stateEnteredAt
             lastSelfSet := r.2 }, [r.1])
      | none => ({ s with status := DuckingStatus.Disabled }, [])
  else
    match inp.triggerDevice with
    | none => ({ s with status := DuckingStatus.Idle }, [])
    | some _ =>
        let voiceActive : Bool := decide (inp.peakDb > cfg.thresholdDb)
        let elapsed := inp.now - s.stateEnteredAt
        match s.status with
        | DuckingStatus.Disabled =>
            ({ s with status := DuckingStatus.Idle, stateEnteredAt := inp.now }, [])
        | DuckingStatus.Idle =>
            if voiceActive then
              let orig :=
                match s.originalVolumeDb with
                | some v => some v
                | none => (get_current_volume inp.env s.lastSelfSet inp.now).1
              ({ s with
                  status := DuckingStatus.Attacking
                  originalVolumeDb := orig
                  stateEnteredAt := inp.now }, [])
            else (s, [])
        | DuckingStatus.Attacking =>
            if cfg.attackMs ≤ elapsed then
              match s.originalVolumeDb with
              | some orig =>
                  let a := apply_volume cfg.targetSource (orig + cfg.duckAmountDb) inp.now
                  ({ s with
                      status := DuckingStatus.Ducking
                      stateEnteredAt := inp.now
                      lastSelfSet := a.2 }, [a.1])
              | none =>
                  ({ s with status := DuckingStatus.Ducking, stateEnteredAt := inp.now }, [])
            else if voiceActive = false then
              ({ s with
                  status := DuckingStatus.Idle
                  originalVolumeDb := none
                  stateEnteredAt := inp.now }, [])
            else (s, [])
        | DuckingStatus.Ducking =>
            if voiceActive then (s, [])
            else ({ s with status := DuckingStatus.Holding, stateEnteredAt := inp.now }, [])
        | DuckingStatus.Holding =>
            if voiceActive then
              ({ s with status := DuckingStatus.Ducking, stateEnteredAt := inp.now }, [])
            else if cfg.holdMs ≤ elapsed then
              ({ s with status := DuckingStatus.Releasing, stateEnteredAt := inp.now }, [])
            else (s, [])
        | DuckingStatus.Releasing =>
            if voiceActive then
              ({ s with status := DuckingStatus.Ducking, stateEnteredAt := inp.now }, [])
            else if cfg.releaseMs ≤ elapsed then
              match s.originalVolumeDb with
              | some orig =>
                  let r := restore_volume cfg.targetSource orig inp.now
                  ({ s with
                      status := DuckingStatus.Idle
                      originalVolumeDb := none
                      stateEnteredAt := inp.now
                      lastSelfSet := r.2 }, [r.1])
              | none =>
                  ({ s with
                      status := DuckingStatus.Idle
                      originalVolumeDb := none
                      stateEnteredAt := inp.now }, [])
            else (s, [])

/-- The loop-local state at the top of start_ducking_loop: status Disabled,
no cached volume, no recorded self write. -/
def duckInit : LoopState :=
  { status := DuckingStatus.Disabled
    originalVolumeDb := none
    stateEnteredAt := 0
    lastSelfSet := none }

/-- Run the ducking loop over a list of tick inputs, collecting the status
after each tick and all issued volume commands. -/
def run_ducking : LoopState → List TickInput → LoopState × List DuckingStatus × List VolCmd
  | s, [] => (s, [], [])
  | s, inp :: rest =>
      let t := ducking_tick s inp
      let r := run_ducking t.1 rest
      (r.1, t.1.status :: r.2.1, t.2 ++ r.2.2)

/-- Final state after running the ducking loop over a list of tick inputs. -/
def run_state (s : LoopState) (l : List TickInput) : LoopState :=
  (run_ducking s l).1

/-- A loop state is reachable when some sequence of tick inputs drives the
controller to it from its initial state. -/
def ReachableDuck (s : LoopState) : Prop :=
  ∃ l : List TickInput, run_state duckInit l = s

/-- Collapse consecutive duplicates in a status trace, leaving the sequence of
distinct states passed through. -/
def collapseRuns : List DuckingStatus → List DuckingStatus
  | [] => []
  | [a] => [a]
  | a :: b :: rest =>
      if a = b then collapseRuns (b :: rest) else a :: collapseRuns (b :: rest)

/-! ## Scenario of section 8 of the spec: one full duck and release cycle -/

/-- Configuration for the spec scenario: threshold -40 dB, duck amount -14 dB,
attack 50 ms, hold 100 ms, release 100 ms. -/
def c2Config : DuckingConfig :=
  { enabled := true
    triggerSource := "mic"
    targetSource := "music"
    thresholdDb := -40
    duckAmountDb := -14
    attackMs := 50
    holdMs := 100
    releaseMs := 100 }

/-- Trigger peak sequence in dB for the scenario. -/
def c2Dbs : List ℚ := [-50, -30, -30, -30, -50, -50, -50, -50, -50]

/-- Volume environment for the scenario: the target source sits at -10 dB. -/
def c2Env : VolEnv := { stateVolume := some (-10), remoteVolume := some (-10) }

/-- Tick input number i of the scenario: ticks are 50 ms apart and feed the
dB sequence c2Dbs. -/
def c2In (i : ℕ) : TickInput :=
  { cfg := c2Config
    triggerDevice := some "dev-mic"
    peakDb := c2Dbs.getD i 0
    env := c2Env
    now := 50 * i }

/-- The nine tick inputs of the scenario. -/
def c2Inputs : List TickInput :=
  [c2In 0, c2In 1, c2In 2, c2In 3, c2In 4, c2In 5, c2In 6, c2In 7, c2In 8]

/-- The scenario starts at Idle with no cached volume. -/
def c2Start : LoopState :=
  { status := DuckingStatus.Idle
    originalVolumeDb := none
    stateEnteredAt := 0
    lastSelfSet := none }

/-- State after the scenario's Idle to Attacking transition. -/
def c2S1 : LoopState :=
  { status := DuckingStatus.Attacking
    originalVolumeDb := some (-10)
    stateEnteredAt := 50
    lastSelfSet := none }

/-- State after the scenario's Attacking to Ducking transition. -/
def c2S2 : LoopState :=
  { status := DuckingStatus.Ducking
    originalVolumeDb := some (-10)
    stateEnteredAt := 100
    lastSelfSet := some 100 }

/-- State after the scenario's Ducking to Holding transition. -/
def c2S4 : LoopState :=
  { status := DuckingStatus.Holding
    originalVolumeDb := some (-10)
    stateEnteredAt := 200
    lastSelfSet := some 100 }

/-- State after the scenario's Holding to Releasing transition. -/
def c2S6 : LoopState :=
  { status := DuckingStatus.Releasing
    originalVolumeDb := some (-10)
    stateEnteredAt := 300
    lastSelfSet := some 100 }

/-- State after the scenario's Releasing to Idle transition. -/
def c2S8 : LoopState :=
  { status := DuckingStatus.Idle
    originalVolumeDb := none
    stateEnteredAt := 400
    lastSelfSet := some 400 }

theorem c2_step0 : ducking_tick c2Start (c2In 0) = (c2Start, []) := by
  norm_num [ducking_tick, c2In, c2Config, c2Dbs, c2Env, c2Start, get_current_volume] <;>
    (intro h; exact absurd h (by simp))

theorem c2_step1 : ducking_tick c2Start (c2In 1) = (c2S1, []) := by
  norm_num [ducking_tick, c2In, c2Config, c2Dbs, c2Env, c2Start, c2S1,
    get_current_volume] <;> (intro h; exact absurd h (by simp))

theorem c2_step2 :
    ducking_tick c2S1 (c2In 2) = (c2S2, [VolCmd.setInputVolume "music" (-24)]) := by
  norm_num [ducking_tick, c2In, c2Config, c2Dbs, c2Env, c2S1, c2S2, apply_volume] <;>
    (intro h; exact absurd h (by simp))

theorem c2_step3 : ducking_tick c2S2 (c2In 3) = (c2S2, []) := by
  norm_num [ducking_tick, c2In, c2Config, c2Dbs, c2Env, c2S2] <;>
    (intro h; exact absurd h (by simp))

theorem c2_step4 : ducking_tick c2S2 (c2In 4) = (c2S4, []) := by
  norm_num [ducking_tick, c2In, c2Config, c2Dbs, c2Env, c2S2, c2S4] <;>
    (intro h; exact absurd h (by simp))

theorem c2_step5 : ducking_tick c2S4 (c2In 5) = (c2S4, []) := by
  norm_num [ducking_tick, c2In, c2Config, c2Dbs, c2Env, c2S4] <;>
    (intro h; exact absurd h (by simp))

theorem c2_step6 : ducking_tick c2S4 (c2In 6) = (c2S6, []) := by
  norm_num [ducking_tick, c2In, c2Config, c2Dbs, c2Env, c2S4, c2S6] <;>
    (intro h; exact absurd h (by simp))

theorem c2_step7 : ducking_tick c2S6 (c2In 7) = (c2S6, []) := by
  norm_num [ducking_tick, c2In, c2Config, c2Dbs, c2Env, c2S6] <;>
    (intro h; exact absurd h (by simp))

theorem c2_step8 :
    ducking_tick c2S6 (c2In 8) = (c2S8, [VolCmd.setInputVolume "music" (-10)]) := by
  norm_num [ducking_tick, c2In, c2Config, c2Dbs, c2Env, c2S6, c2S8, apply_volume,
    restore_volume] <;> (intro h; exact absurd h (by simp))

/-- C2: on the trigger dB sequence -50, -30, -30, -30, -50, ... with threshold
-40 dB, attack 50 ms, hold 100 ms, release 100 ms and a 50 ms tick, the
controller starting at Idle passes through exactly
Idle, Attacking, Ducking, Holding, Releasing, Idle in that order, and issues
exactly one duck command (SetInputVolume -24 dB) and one restore command
(SetInputVolume -10 dB) over the whole run. -/
theorem ducking_scenario_transitions :
    collapseRuns (DuckingStatus.Idle :: (run_ducking c2Start c2Inputs).2.1) =
      [DuckingStatus.Idle, DuckingStatus.Attacking, DuckingStatus.Ducking,
       DuckingStatus.Holding, DuckingStatus.Releasing, DuckingStatus.Idle]
  ∧ (run_ducking c2Start c2Inputs).2.2 =
      [VolCmd.setInputVolume "music" (-24), VolCmd.setInputVolume "music" (-10)] := by
  have h : run_ducking c2Start c2Inputs =
      (c2S8,
       [DuckingStatus.Idle, DuckingStatus.Attacking, DuckingStatus.Ducking,
        DuckingStatus.Ducking, DuckingStatus.Holding, DuckingStatus.Holding,
        DuckingStatus.Releasing, DuckingStatus.Releasing, DuckingStatus.Idle],
       [VolCmd.setInputVolume "music" (-24), VolCmd.setInputVolume "music" (-10)]) := by
    simp only [c2Inputs, run_ducking, c2_step0, c2_step1, c2_step2, c2_step3, c2_step4,
      c2_step5, c2_step6, c2_step7, c2_step8]
    rfl
  rw [h]
  exact ⟨rfl, rfl⟩

/-! ## Volume arithmetic of the ducking controller -/

theorem duck_cmd_general (s : LoopState) (inp : TickInput) (v : ℚ)
    (h1 : inp.cfg.enabled = true) (h2 : inp.cfg.triggerSource ≠ "")
    (h3 : inp.cfg.targetSource ≠ "") (h4 : inp.triggerDevice.isSome = true)
    (h5 : s.status = DuckingStatus.Attacking) (h6 : s.originalVolumeDb = some v)
    (h7 : inp.cfg.attackMs ≤ inp.now - s.stateEnteredAt) :
    (ducking_tick s inp).2 =
      [VolCmd.setInputVolume inp.cfg.targetSource (v + inp.cfg.duckAmountDb)] := by
  obtain ⟨d, hd⟩ := Option.isSome_iff_exists.mp h4
  simp [ducking_tick, h1, h2, h3, hd, h5, h6, h7, apply_volume]

theorem restore_cmd_general (s : LoopState) (inp : TickInput) (v : ℚ)
    (h1 : inp.cfg.enabled = true) (h2 : inp.cfg.triggerSource ≠ "")
    (h3 : inp.cfg.targetSource ≠ "") (h4 : inp.triggerDevice.isSome = true)
    (h5 : s.status = DuckingStatus.Releasing) (h6 : s.originalVolumeDb = some v)
    (hv : ¬(inp.peakDb > inp.cfg.thresholdDb))
    (h7 : inp.cfg.releaseMs ≤ inp.now - s.stateEnteredAt) :
    (ducking_tick s inp).2 = [VolCmd.setInputVolume inp.cfg.targetSource v] := by
  obtain ⟨d, hd⟩ := Option.isSome_iff_exists.mp h4
  simp [ducking_tick, h1, h2, h3, hd, h5, h6, h7, hv, apply_volume, restore_volume]

theorem disable_restore_general (s : LoopState) (inp : TickInput) (v : ℚ)
    (h : ¬inp.cfg.enabled ∨ inp.cfg.triggerSource = "" ∨ inp.cfg.targetSource = "")
    (h2 : s.status ≠ DuckingStatus.Disabled) (h3 : s.originalVolumeDb = some v) :
    (ducking_tick s inp).2 = [VolCmd.setInputVolume inp.cfg.targetSource v] := by
  simp only [ducking_tick]
  rw [if_pos h, if_neg h2, h3]
  simp [restore_volume, apply_volume]

/-- C1: whenever the tick that completes an attack fires with a cached
original volume v, the single issued command sets the target volume to
exactly v + duck_amount_db; the restore on Releasing to Idle and on a forced
Disabled transition sets exactly the cached v; concretely, with cached
original -10 dB and duck amount -14 dB the duck command is exactly -24 dB and
the post-release command is exactly -10 dB. -/
theorem ducking_volume_arithmetic :
    (∀ (s : LoopState) (inp : TickInput) (v : ℚ),
        inp.cfg.enabled = true → inp.cfg.triggerSource ≠ "" →
        inp.cfg.targetSource ≠ "" → inp.triggerDevice.isSome = true →
        s.status = DuckingStatus.Attacking → s.originalVolumeDb = some v →
        inp.cfg.attackMs ≤ inp.now - s.stateEnteredAt →
        (ducking_tick s inp).2 =
          [VolCmd.setInputVolume inp.cfg.targetSource (v + inp.cfg.duckAmountDb)])
  ∧ (∀ (s : LoopState) (inp : TickInput) (v : ℚ),
        inp.cfg.enabled = true → inp.cfg.triggerSource ≠ "" →
        inp.cfg.targetSource ≠ "" → inp.triggerDevice.isSome = true →
        s.status = DuckingStatus.Releasing → s.originalVolumeDb = some v →
        ¬(inp.peakDb > inp.cfg.thresholdDb) →
        inp.cfg.releaseMs ≤ inp.now - s.stateEnteredAt →
        (ducking_tick s inp).2 = [VolCmd.setInputVolume inp.cfg.targetSource v])
  ∧ (∀ (s : LoopState) (inp : TickInput) (v : ℚ),
        (¬inp.cfg.enabled ∨ inp.cfg.triggerSource = "" ∨ inp.cfg.targetSource = "") →
        s.status ≠ DuckingStatus.Disabled → s.originalVolumeDb = some v →
        (ducking_tick s inp).2 = [VolCmd.setInputVolume inp.cfg.targetSource v])
  ∧ ((-10 : ℚ) + (-14) = -24
     ∧ (ducking_tick c2S1 (c2In 2)).2 = [VolCmd.setInputVolume "music" (-24)]
     ∧ (ducking_tick c2S6 (c2In 8)).2 = [VolCmd.setInputVolume "music" (-10)]) := by
  refine ⟨duck_cmd_general, restore_cmd_general, disable_restore_general,
    by norm_num, ?_, ?_⟩
  · exact congrArg Prod.snd c2_step2
  · exact congrArg Prod.snd c2_step8

/-- Witness for C1: the duck command of the scenario's attack tick, obtained
by instantiating the general duck-command statement at the concrete state. -/
theorem ducking_volume_arithmetic_witness :
    (ducking_tick c2S1 (c2In 2)).2 =
      [VolCmd.setInputVolume (c2In 2).cfg.targetSource ((-10) + (c2In 2).cfg.duckAmountDb)] :=
  ducking_volume_arithmetic.1 c2S1 (c2In 2) (-10) rfl (by decide) (by decide) rfl rfl rfl
    (by decide)

/-! ## Original-volume cache invariant -/

/-- The invariant claimed for the original-volume cache: non-empty in every
state other than Disabled and Idle. -/
def cacheInvariant (s : LoopState) : Prop :=
  s.status ≠ DuckingStatus.Disabled → s.status ≠ DuckingStatus.Idle →
    s.originalVolumeDb.isSome = true

/-- Volume environment in which both the obs_state mirror and the remote
request fail to produce a value. -/
def c3Env : VolEnv := { stateVolume := none, remoteVolume := none }

/-- First counterexample tick: trigger quiet, drives Disabled to Idle. -/
def c3i1 : TickInput :=
  { cfg := c2Config, triggerDevice := some "dev-mic", peakDb := -50, env := c3Env, now := 0 }

/-- Second counterexample tick: trigger active while every volume read fails. -/
def c3i2 : TickInput :=
  { cfg := c2Config, triggerDevice := some "dev-mic", peakDb := -30, env := c3Env, now := 50 }

/-- The Attacking state with an empty cache reached when the volume read on
the Idle to Attacking transition fails. -/
def c3Bad : LoopState :=
  { status := DuckingStatus.Attacking
    originalVolumeDb := none
    stateEnteredAt := 50
    lastSelfSet := none }

theorem run_reaches_c3Bad : run_state duckInit [c3i1, c3i2] = c3Bad := by
  have hs : (("mic" : String) = "" ∨ ("music" : String) = "") = False := by simp
  norm_num [run_state, run_ducking, ducking_tick, c3i1, c3i2, c2Config, c3Env,
    get_current_volume, duckInit, c3Bad, hs]

/-- C3 counterexample: when the volume read on the Idle to Attacking
transition fails (remote unreachable and no obs_state mirror entry), the
controller reaches Attacking with an empty original-volume cache, falsifying
the claimed invariant. -/
theorem cache_invariant_counterexample :
    run_state duckInit [c3i1, c3i2] = c3Bad
  ∧ ReachableDuck c3Bad
  ∧ c3Bad.status ≠ DuckingStatus.Disabled
  ∧ c3Bad.status ≠ DuckingStatus.Idle
  ∧ c3Bad.originalVolumeDb = none
  ∧ ¬cacheInvariant c3Bad :=
  ⟨run_reaches_c3Bad, ⟨[c3i1, c3i2], run_reaches_c3Bad⟩, by simp [c3Bad], by simp [c3Bad],
   rfl, by simp [cacheInvariant, c3Bad]⟩

theorem get_current_volume_isSome (env : VolEnv) (lss : Option ℕ) (now : ℕ)
    (h1 : env.stateVolume.isSome = true) (h2 : env.remoteVolume.isSome = true) :
    ((get_current_volume env lss now).1).isSome = true := by
  unfold get_current_volume
  cases lss with
  | none => exact h2
  | some ts => by_cases h : now - ts < 500 <;> simp [h, h1, h2]

theorem ducking_tick_preserves_cache (s : LoopState) (inp : TickInput)
    (h1 : inp.env.stateVolume.isSome = true) (h2 : inp.env.remoteVolume.isSome = true)
    (h : cacheInvariant s) : cacheInvariant (ducking_tick s inp).1 := by
  by_cases hdis : ¬inp.cfg.enabled ∨ inp.cfg.triggerSource = "" ∨ inp.cfg.targetSource = ""
  · simp only [ducking_tick, if_pos hdis]
    by_cases hst : s.status = DuckingStatus.Disabled
    · simpa [hst] using h
    · cases horig : s.originalVolumeDb <;> simp [hst, horig, cacheInvariant]
  · simp only [ducking_tick, if_neg hdis]
    cases htd : inp.triggerDevice with
    | none => simp [cacheInvariant]
    | some d =>
      cases hst : s.status with
      | Disabled => simp [cacheInvariant]
      | Idle =>
          by_cases hv : inp.peakDb > inp.cfg.thresholdDb
          · cases horig : s.originalVolumeDb with
            | some v => simp [hv, horig, cacheInvariant]
            | none =>
                simp [hv, horig, cacheInvariant,
                  get_current_volume_isSome inp.env s.lastSelfSet inp.now h1 h2]
          · simp [hv, cacheInvariant, hst]
      | Attacking =>
          have hsome : s.originalVolumeDb.isSome = true := by
            exact h (by simp [hst]) (by simp [hst])
          obtain ⟨v, hv'⟩ := Option.isSome_iff_exists.mp hsome
          by_cases ha : inp.cfg.attackMs ≤ inp.now - s.stateEnteredAt
          · simp [ha, hv', cacheInvariant]
          · by_cases hva : inp.peakDb > inp.cfg.thresholdDb
            · simp [ha, hva, cacheInvariant, hst, hv']
            · simp [ha, hva, cacheInvariant]
      | Ducking =>
          have hsome : s.originalVolumeDb.isSome = true := by
            exact h (by simp [hst]) (by simp [hst])
          by_cases hv : inp.peakDb > inp.cfg.thresholdDb <;>
            simp [hv, cacheInvariant, hst, hsome]
      | Holding =>
          have hsome : s.originalVolumeDb.isSome = true := by
            exact h (by simp [hst]) (by simp [hst])
          by_cases hv : inp.peakDb > inp.cfg.thresholdDb
          · simp [hv, cacheInvariant, hst, hsome]
          · by_cases hh : inp.cfg.holdMs ≤ inp.now - s.stateEnteredAt <;>
              simp [hv, hh, cacheInvariant, hst, hsome]
      | Releasing =>
          have hsome : s.originalVolumeDb.isSome = true := by
            exact h (by simp [hst]) (by simp [hst])
          obtain ⟨v, hv'⟩ := Option.isSome_iff_exists.mp hsome
          by_cases hv2 : inp.peakDb > inp.cfg.thresholdDb
          · simp [hv2, cacheInvariant, hst, hsome]
          · by_cases hr : inp.cfg.releaseMs ≤ inp.now - s.stateEnteredAt <;>
              simp [hv2, hr, hv', cacheInvariant, hst, hsome]

theorem run_state_cons (s : LoopState) (i : TickInput) (l : List TickInput) :
    run_state s (i :: l) = run_state (ducking_tick s i).1 l := rfl

theorem run_preserves_cache (l : List TickInput) :
    ∀ s : LoopState, cacheInvariant s →
      (∀ inp ∈ l, inp.env.stateVolume.isSome = true ∧ inp.env.remoteVolume.isSome = true) →
      cacheInvariant (run_state s l) := by
  induction l with
  | nil => intro s h _; simpa [run_state, run_ducking] using h
  | cons i rest ih =>
      intro s h henv
      rw [run_state_cons]
      exact ih _
        (ducking_tick_preserves_cache s i (henv i (by simp)).1 (henv i (by simp)).2 h)
        (fun inp hm => henv inp (List.mem_cons_of_mem _ hm))

/-- C3 amended: provided every volume read available to the controller
succeeds (both the obs_state mirror and the remote response carry a value on
every tick), every reachable state of the controller has a non-empty
original-volume cache whenever its status is neither Disabled nor Idle.
Without that proviso the invariant fails, see the counterexample. -/
theorem original_volume_cache_invariant (l : List TickInput)
    (henv : ∀ inp ∈ l,
      inp.env.stateVolume.isSome = true ∧ inp.env.remoteVolume.isSome = true) :
    cacheInvariant (run_state duckInit l) :=
  run_preserves_cache l duckInit (by simp [cacheInvariant, duckInit]) henv

/-- Witness for C3: the invariant holds at the end of the concrete scenario
run, whose environment always provides a volume. -/
theorem original_volume_cache_invariant_witness :
    cacheInvariant (run_state duckInit c2Inputs) :=
  original_volume_cache_invariant c2Inputs (by
    intro inp hm
    fin_cases hm <;> exact ⟨rfl, rfl⟩)

/-! ## Self-echo suppression -/

/-- C7: apply_volume records the write instant; a volume read issued less
than 500 ms after the controller's own last write is served from the locally
mirrored obs_state value and issues no remote GetInputVolume request, while a
read 500 ms or more after the last write (or with no recorded write) goes to
the remote application. -/
theorem self_echo_suppression :
    (∀ (t : String) (v : ℚ) (now : ℕ), (apply_volume t v now).2 = some now)
  ∧ (∀ (env : VolEnv) (ts now : ℕ), now - ts < 500 →
        get_current_volume env (some ts) now = (env.stateVolume, false))
  ∧ (∀ (env : VolEnv) (ts now : ℕ), 500 ≤ now - ts →
        get_current_volume env (some ts) now = (env.remoteVolume, true))
  ∧ (∀ (env : VolEnv) (now : ℕ),
        get_current_volume env none now = (env.remoteVolume, true)) := by
  refine ⟨fun t v now => rfl, ?_, ?_, fun env now => rfl⟩
  · intro env ts now h
    simp [get_current_volume, h]
  · intro env ts now h
    simp [get_current_volume, Nat.not_lt.mpr h]

/-- Witness for C7: a read 100 ms after a write is served from the mirror
without a remote request, and the write instant was recorded. -/
theorem self_echo_suppression_witness :
    get_current_volume c2Env (some 0) 100 = (c2Env.stateVolume, false)
  ∧ (apply_volume "music" (-24) 100).2 = some 100 :=
  ⟨self_echo_suppression.2.1 c2Env 0 100 (by norm_num),
   self_echo_suppression.1 "music" (-24) 100⟩

/-! ## Linear peak to dB conversion -/

/-- The dB conversion of the ducking loop (ducking.rs lines 121-125): peaks
at or below the 1e-4 linear floor map to -100 dB, anything above maps to
20 * log10(peak). -/
noncomputable def peak_db (peak : ℝ) : ℝ :=
  if peak > 1/10000 then 20 * Real.logb 10 peak else -100

theorem peak_db_mono (p q : ℝ) (h : p ≤ q) : peak_db p ≤ peak_db q := by
  unfold peak_db
  by_cases hp : p > 1/10000
  · have hq : q > 1/10000 := lt_of_lt_of_le hp h
    rw [if_pos hp, if_pos hq]
    have hlog := Real.logb_le_logb_of_le (by norm_num : (1:ℝ) < 10)
      (lt_trans (by norm_num) hp) h
    linarith
  · rw [if_neg hp]
    by_cases hq : q > 1/10000
    · rw [if_pos hq]
      have hq0 : (0:ℝ) < q := lt_trans (by norm_num) hq
      have h5 : (-5 : ℝ) < Real.logb 10 q := by
        rw [Real.lt_logb_iff_rpow_lt (by norm_num) hq0]
        have hpow : (10:ℝ) ^ (-5 : ℝ) = (100000)⁻¹ := by
          rw [Real.rpow_neg (by norm_num),
            show ((5:ℝ)) = ((5:ℕ):ℝ) by norm_num, Real.rpow_natCast]
          norm_num
        rw [hpow]
        linarith [hq]
      linarith
    · rw [if_neg hq]

/-- C8: the trigger dB conversion returns -100 for every linear peak at or
below 1e-4 and 20 * log10(peak) above it, and is monotonically non-decreasing
over the whole real line, including across the 1e-4 floor boundary. -/
theorem peak_db_conversion_spec :
    (∀ p : ℝ, p ≤ 1/10000 → peak_db p = -100)
  ∧ (∀ p : ℝ, 1/10000 < p → peak_db p = 20 * Real.logb 10 p)
  ∧ (∀ p q : ℝ, p ≤ q → peak_db p ≤ peak_db q) := by
  refine ⟨?_, ?_, peak_db_mono⟩
  · intro p h
    unfold peak_db
    rw [if_neg (not_lt.mpr h)]
  · intro p h
    unfold peak_db
    rw [if_pos h]

/-- Witness for C8: a zero peak maps to the -100 dB floor and the conversion
is ordered between peaks 0 and 1. -/
theorem peak_db_conversion_spec_witness :
    peak_db 0 = -100 ∧ peak_db 0 ≤ peak_db 1 :=
  ⟨peak_db_conversion_spec.1 0 (by norm_num),
   peak_db_conversion_spec.2.2 0 1 (by norm_num)⟩

/-! ## Missing metrics make the trigger inactive -/

/-- The peak lookup of the ducking loop (ducking.rs lines 112-119): a device
missing from the metrics snapshot yields peak 0.0. -/
def lookup_peak (devices : List (String × ℝ)) (id : String) : ℝ :=
  (devices.lookup id).getD 0

/-- C10: a trigger device with no entry in the metrics snapshot is read as
peak 0.0, which converts to -100 dB, so the trigger never evaluates active
for any threshold at or above -100 dB; with an inactive trigger the
controller neither leaves Idle nor stays in Ducking, and it issues no
command on such a tick. -/
theorem missing_metrics_never_active :
    (∀ (devices : List (String × ℝ)) (id : String),
        devices.lookup id = none → lookup_peak devices id = 0)
  ∧ peak_db 0 = -100
  ∧ (∀ t : ℝ, -100 ≤ t → ¬(peak_db 0 > t))
  ∧ (∀ (s : LoopState) (inp : TickInput),
        inp.cfg.enabled = true → inp.cfg.triggerSource ≠ "" →
        inp.cfg.targetSource ≠ "" → inp.triggerDevice.isSome = true →
        ¬(inp.peakDb > inp.cfg.thresholdDb) → s.status = DuckingStatus.Idle →
        ducking_tick s inp = (s, []))
  ∧ (∀ (s : LoopState) (inp : TickInput),
        inp.cfg.enabled = true → inp.cfg.triggerSource ≠ "" →
        inp.cfg.targetSource ≠ "" → inp.triggerDevice.isSome = true →
        ¬(inp.peakDb > inp.cfg.thresholdDb) → s.status = DuckingStatus.Ducking →
        (ducking_tick s inp).1.status = DuckingStatus.Holding
          ∧ (ducking_tick s inp).2 = []) := by
  have hfloor : peak_db 0 = -100 := by simp [peak_db]
  refine ⟨?_, hfloor, ?_, ?_, ?_⟩
  · intro devices id h
    simp [lookup_peak, h]
  · intro t ht
    rw [hfloor]
    exact not_lt.mpr ht
  · intro s inp h1 h2 h3 h4 hv h5
    obtain ⟨d, hd⟩ := Option.isSome_iff_exists.mp h4
    simp [ducking_tick, h1, h2, h3, hd, h5, hv]
  · intro s inp h1 h2 h3 h4 hv h5
    obtain ⟨d, hd⟩ := Option.isSome_iff_exists.mp h4
    constructor <;> simp [ducking_tick, h1, h2, h3, hd, h5, hv]

/-- Witness for C10: looking up a device in an empty snapshot yields peak 0,
and -100 dB is not above a -40 dB threshold. -/
theorem missing_metrics_never_active_witness :
    lookup_peak [] "dev-mic" = 0 ∧ ¬(peak_db 0 > -40) :=
  ⟨missing_metrics_never_active.1 [] "dev-mic" rfl,
   missing_metrics_never_active.2.2.1 (-40) (by norm_num)⟩

/-! ## Raw sample extraction -/

/-- Byte i of the raw capture buffer; reads past the end give 0. -/
def byte_at (bytes : List ℕ) (i : ℕ) : ℕ := bytes.getD i 0

/-- Sample i of the buffer viewed as 16-bit little-endian signed integers, as
read by the 16-bit arm of extract_samples (spectrum.rs lines 416-421). -/
def sample16 (bytes : List ℕ) (i : ℕ) : ℤ :=
  let u := byte_at bytes (2 * i) + 256 * byte_at bytes (2 * i + 1)
  if 32768 ≤ u then (u : ℤ) - 65536 else (u : ℤ)

/-- The packed 24-bit sample starting at a byte offset: three little-endian
bytes assembled with shifts into the top of an i32 and arithmetically shifted
back down by 8, which sign-extends (spectrum.rs line 433). -/
def sample24 (bytes : List ℕ) (offset : ℕ) : ℤ :=
  let u := byte_at bytes offset + 256 * byte_at bytes (offset + 1) +
    65536 * byte_at bytes (offset + 2)
  if 8388608 ≤ u then (u : ℤ) - 16777216 else (u : ℤ)

/-- extract_samples of spectrum.rs: decode frame_count * channels samples
from the raw buffer according to bits_per_sample. The buffer is supplied both
as raw bytes and as its reinterpretation as 32-bit floats (the floats list),
because the 32-bit arm reads the buffer through a float pointer and copies
the values through unchanged. Unrecognized bit depths degrade to silence. -/
def extract_samples (bytes : List ℕ) (floats : List ℚ) (frame_count channels : ℕ)
    (bits_per_sample : ℕ) (block_align : ℕ) : List ℚ :=
  if bits_per_sample = 32 then
    (List.range (frame_count * channels)).map (fun i => floats.getD i 0)
  else if bits_per_sample = 16 then
    (List.range (frame_count * channels)).map (fun i => (sample16 bytes i : ℚ) / 32768)
  else if bits_per_sample = 24 then
    (List.range frame_count).flatMap (fun f =>
      (List.range channels).map (fun ch =>
        (sample24 bytes (f * block_align + ch * 3) : ℚ) / 8388608))
  else List.replicate (frame_count * channels) 0

theorem byte_at_lt (bytes : List ℕ) (hb : ∀ b ∈ bytes, b < 256) (i : ℕ) :
    byte_at bytes i < 256 := by
  unfold byte_at
  by_cases h : i < bytes.length
  · rw [List.getD_eq_getElem _ _ h]
    exact hb _ (List.getElem_mem h)
  · rw [List.getD_eq_default _ _ (Nat.le_of_not_lt h)]
    norm_num

theorem sample16_bounds (bytes : List ℕ) (hb : ∀ b ∈ bytes, b < 256) (i : ℕ) :
    -32768 ≤ sample16 bytes i ∧ sample16 bytes i ≤ 32767 := by
  unfold sample16
  have h0 := byte_at_lt bytes hb (2 * i)
  have h1 := byte_at_lt bytes hb (2 * i + 1)
  by_cases h : 32768 ≤ byte_at bytes (2 * i) + 256 * byte_at bytes (2 * i + 1)
  · rw [if_pos h]
    omega
  · rw [if_neg h]
    omega

theorem sample24_bounds (bytes : List ℕ) (hb : ∀ b ∈ bytes, b < 256) (o : ℕ) :
    -8388608 ≤ sample24 bytes o ∧ sample24 bytes o ≤ 8388607 := by
  unfold sample24
  have h0 := byte_at_lt bytes hb o
  have h1 := byte_at_lt bytes hb (o + 1)
  have h2 := byte_at_lt bytes hb (o + 2)
  by_cases h : 8388608 ≤ byte_at bytes o + 256 * byte_at bytes (o + 1) +
      65536 * byte_at bytes (o + 2)
  · rw [if_pos h]
    omega
  · rw [if_neg h]
    omega

theorem int_div_unit_bounds (s : ℤ) (n : ℚ) (hn : 0 < n) (hlo : -n ≤ (s : ℚ))
    (hhi : (s : ℚ) ≤ n) : -1 ≤ (s : ℚ) / n ∧ (s : ℚ) / n ≤ 1 := by
  constructor
  · rw [le_div_iff hn]
    linarith
  · rw [div_le_one hn]
    exact hhi

theorem extract_samples_length (bytes : List ℕ) (floats : List ℚ)
    (frame_count channels bits_per_sample block_align : ℕ) :
    (extract_samples bytes floats frame_count channels bits_per_sample
      block_align).length = frame_count * channels := by
  unfold extract_samples
  by_cases h32 : bits_per_sample = 32
  · simp [h32]
  · by_cases h16 : bits_per_sample = 16
    · simp [h32, h16]
    · by_cases h24 : bits_per_sample = 24
      · simp [h32, h16, h24, List.length_flatMap, Function.comp_def]
      · simp [h32, h16, h24]

theorem extract16_mem (bytes : List ℕ) (floats : List ℚ) (fc ch ba : ℕ)
    (hb : ∀ b ∈ bytes, b < 256) (q : ℚ)
    (hq : q ∈ extract_samples bytes floats fc ch 16 ba) : -1 ≤ q ∧ q ≤ 1 := by
  unfold extract_samples at hq
  norm_num at hq
  obtain ⟨i, hi, rfl⟩ := hq
  obtain ⟨hlo, hhi⟩ := sample16_bounds bytes hb i
  refine int_div_unit_bounds _ _ (by norm_num) ?_ ?_
  · exact_mod_cast hlo
  · have h : (sample16 bytes i : ℚ) ≤ 32767 := by exact_mod_cast hhi
    linarith

theorem extract24_mem (bytes : List ℕ) (floats : List ℚ) (fc ch ba : ℕ)
    (hb : ∀ b ∈ bytes, b < 256) (q : ℚ)
    (hq : q ∈ extract_samples bytes floats fc ch 24 ba) : -1 ≤ q ∧ q ≤ 1 := by
  unfold extract_samples at hq
  norm_num at hq
  obtain ⟨f, hf, c, hc, rfl⟩ := hq
  obtain ⟨hlo, hhi⟩ := sample24_bounds bytes hb (f * ba + c * 3)
  refine int_div_unit_bounds _ _ (by norm_num) ?_ ?_
  · exact_mod_cast hlo
  · have h : (sample24 bytes (f * ba + c * 3) : ℚ) ≤ 8388607 := by exact_mod_cast hhi
    linarith

theorem extract32_mem (bytes : List ℕ) (floats : List ℚ) (fc ch ba : ℕ)
    (hf : ∀ x ∈ floats, -1 ≤ x ∧ x ≤ 1) (q : ℚ)
    (hq : q ∈ extract_samples bytes floats fc ch 32 ba) : -1 ≤ q ∧ q ≤ 1 := by
  unfold extract_samples at hq
  norm_num at hq
  obtain ⟨i, hi, rfl⟩ := hq
  by_cases h : i < floats.length
  · rw [List.getElem?_eq_getElem h]
    simpa using hf _ (List.getElem_mem h)
  · rw [List.getElem?_eq_none (Nat.le_of_not_lt h)]
    norm_num

/-- C5 counterexample: a one-sample 32-bit float buffer holding 2.0 is
returned unchanged, outside [-1, 1]; the float arm applies no clamping. -/
theorem extract_samples_float_counterexample :
    extract_samples [] [2] 1 1 32 4 = [2] ∧ ¬((2 : ℚ) ≤ 1) := by
  constructor
  · simp [extract_samples, List.range_succ]
  · norm_num

/-- C5 amended: extract_samples always returns exactly frame_count * channels
samples; every 16-bit and 24-bit sample lies in [-1, 1] (bytes being below
256); the 32-bit float arm copies the buffer's float view through unchanged,
so its samples lie in [-1, 1] exactly when the incoming floats do; any other
bit depth degrades to all-zero silence rather than an error. -/
theorem extract_samples_spec :
    (∀ (bytes : List ℕ) (floats : List ℚ) (fc ch bps ba : ℕ),
        (extract_samples bytes floats fc ch bps ba).length = fc * ch)
  ∧ (∀ (bytes : List ℕ) (floats : List ℚ) (fc ch ba : ℕ),
        (∀ b ∈ bytes, b < 256) → ∀ q ∈ extract_samples bytes floats fc ch 16 ba,
          -1 ≤ q ∧ q ≤ 1)
  ∧ (∀ (bytes : List ℕ) (floats : List ℚ) (fc ch ba : ℕ),
        (∀ b ∈ bytes, b < 256) → ∀ q ∈ extract_samples bytes floats fc ch 24 ba,
          -1 ≤ q ∧ q ≤ 1)
  ∧ (∀ (bytes : List ℕ) (floats : List ℚ) (fc ch ba : ℕ),
        extract_samples bytes floats fc ch 32 ba =
          (List.range (fc * ch)).map (fun i => floats.getD i 0))
  ∧ (∀ (bytes : List ℕ) (floats : List ℚ) (fc ch ba : ℕ),
        (∀ x ∈ floats, -1 ≤ x ∧ x ≤ 1) → ∀ q ∈ extract_samples bytes floats fc ch 32 ba,
          -1 ≤ q ∧ q ≤ 1)
  ∧ (∀ (bytes : List ℕ) (floats : List ℚ) (fc ch bps ba : ℕ),
        bps ≠ 32 → bps ≠ 16 → bps ≠ 24 →
        extract_samples bytes floats fc ch bps ba =
          List.replicate (fc * ch) 0) := by
  refine ⟨extract_samples_length, extract16_mem, extract24_mem, ?_, extract32_mem, ?_⟩
  · intro bytes floats fc ch ba
    unfold extract_samples
    rw [if_pos rfl]
  · intro bytes floats fc ch bps ba h32 h16 h24
    unfold extract_samples
    rw [if_neg h32, if_neg h16, if_neg h24]

/-- Witness for C5: decoding the 16-bit buffer 0x00 0x80 yields the single
sample -32768/32768 = -1, which the amended bound confirms lies in [-1, 1]. -/
theorem extract_samples_spec_witness : -1 ≤ (-1 : ℚ) ∧ (-1 : ℚ) ≤ 1 :=
  extract_samples_spec.2.1 [0, 128] [] 1 1 2 (by norm_num) (-1)
    (by norm_num [extract_samples, List.range_succ, sample16, byte_at])

/-! ## Silent capture packets -/

/-- Samples one packet contributes to the narration capture stream
(narration_capture.rs lines 526-543): non-silent packets contribute the
extracted samples, silent packets with frames contribute
frame_count * channels zeros, empty packets contribute nothing. -/
def narration_packet_samples (silent : Bool) (frame_count channels : ℕ)
    (extracted : List ℚ) : List ℚ :=
  if silent = false ∧ 0 < frame_count then extracted
  else if silent = true ∧ 0 < frame_count then
    List.replicate (frame_count * channels) 0
  else []

/-- Samples one packet contributes to the spectrum/loudness stream
(spectrum.rs lines 300-319): packets flagged silent are skipped entirely. -/
def spectrum_packet_samples (silent : Bool) (frame_count : ℕ)
    (extracted : List ℚ) : List ℚ :=
  if silent = false ∧ 0 < frame_count then extracted else []

/-- C4 counterexample: a silent one-frame two-channel packet contributes no
samples at all to the spectrum/loudness stream, not 1 * 2 zero samples, so
the claim fails for that consumer. -/
theorem silent_packet_counterexample :
    spectrum_packet_samples true 1 [3, 7] = []
  ∧ spectrum_packet_samples true 1 [3, 7] ≠ List.replicate (1 * 2) (0 : ℚ) := by
  constructor
  · rfl
  · intro h
    simp [spectrum_packet_samples] at h

/-- C4 amended: for every silent packet with frame_count > 0 the narration
capture loop appends exactly frame_count * channels zero-valued samples,
advancing the stream; the spectrum/loudness capture loop instead skips silent
packets entirely and appends nothing. -/
theorem silent_packet_handling (frame_count channels : ℕ) (extracted : List ℚ)
    (hf : 0 < frame_count) :
    narration_packet_samples true frame_count channels extracted =
      List.replicate (frame_count * channels) 0
  ∧ (narration_packet_samples true frame_count channels extracted).length =
      frame_count * channels
  ∧ (∀ q ∈ narration_packet_samples true frame_count channels extracted, q = 0)
  ∧ spectrum_packet_samples true frame_count extracted = [] := by
  have h : narration_packet_samples true frame_count channels extracted =
      List.replicate (frame_count * channels) 0 := by
    simp [narration_packet_samples, hf]
  refine ⟨h, by rw [h]; simp, ?_, by simp [spectrum_packet_samples]⟩
  rw [h]
  intro q hq
  exact List.eq_of_mem_replicate hq

/-- Witness for C4 amended: a silent one-frame stereo packet appends exactly
two zero samples to the narration stream. -/
theorem silent_packet_handling_witness :
    narration_packet_samples true 1 2 [3, 7] = List.replicate (1 * 2) 0 :=
  (silent_packet_handling 1 2 [3, 7] (by norm_num)).1

/-! ## Noise floor ring (audio_monitor.rs lines 91-115) -/

/-- One polling tick's update of a device's noise-floor history: an RMS above
the 0.0001 silence floor is pushed, and if the ring then exceeds 50 entries
the oldest is removed; silent RMS values leave the ring unchanged. -/
def nf_push (hist : List ℚ) (rms : ℚ) : List ℚ :=
  if rms > 1/10000 then
    if 50 < (hist ++ [rms]).length then (hist ++ [rms]).drop 1 else hist ++ [rms]
  else hist

/-- The published noise floor: the minimum of the ring, or 0 when empty. -/
def noise_floor : List ℚ → ℚ
  | [] => 0
  | x :: xs => xs.foldl min x

theorem foldl_min_le_init (l : List ℚ) : ∀ x : ℚ, List.foldl min x l ≤ x := by
  induction l with
  | nil => intro x; simp
  | cons a l ih => intro x; exact le_trans (ih (min x a)) (min_le_left x a)

theorem foldl_min_le_mem (l : List ℚ) : ∀ x y : ℚ, y ∈ l → List.foldl min x l ≤ y := by
  induction l with
  | nil => intro x y hy; cases hy
  | cons a l ih =>
      intro x y hy
      rcases List.mem_cons.mp hy with rfl | hy
      · exact le_trans (foldl_min_le_init l (min x y)) (min_le_right x y)
      · exact ih (min x a) y hy

theorem noise_floor_le_mem (hist : List ℚ) (x : ℚ) (hx : x ∈ hist) :
    noise_floor hist ≤ x := by
  cases hist with
  | nil => cases hx
  | cons a l =>
      rcases List.mem_cons.mp hx with rfl | hx
      · exact foldl_min_le_init l x
      · exact foldl_min_le_mem l a x hx

theorem noise_floor_append_one (a : ℚ) (l : List ℚ) (r : ℚ) :
    noise_floor ((a :: l) ++ [r]) = min (noise_floor (a :: l)) r := by
  simp [noise_floor, List.foldl_append]

theorem nf_push_short (hist : List ℚ) (r : ℚ) (hr : r > 1/10000)
    (hlen : hist.length < 50) : nf_push hist r = hist ++ [r] := by
  unfold nf_push
  rw [if_pos hr, if_neg (by simp; omega)]

theorem nf_push_mono (hist : List ℚ) (rms : ℚ) (hne : hist ≠ [])
    (hlen : hist.length < 50) :
    noise_floor (nf_push hist rms) ≤ noise_floor hist := by
  by_cases hr : rms > 1/10000
  · rw [nf_push_short hist rms hr hlen]
    obtain ⟨a, l, rfl⟩ := List.exists_cons_of_ne_nil hne
    rw [noise_floor_append_one]
    exact min_le_left _ _
  · unfold nf_push
    rw [if_neg hr]

theorem foldl_push_ones (k : ℕ) : ∀ hist : List ℚ, hist.length + k ≤ 50 →
    List.foldl nf_push hist (List.replicate k 1) = hist ++ List.replicate k 1 := by
  induction k with
  | zero => intro hist h; simp
  | succ n ih =>
      intro hist h
      rw [List.replicate_succ, List.foldl_cons,
        nf_push_short hist 1 (by norm_num) (by omega)]
      rw [ih (hist ++ [1]) (by simp; omega)]
      simp

/-- A full 50-entry ring whose oldest entry 1/2 is its unique minimum. -/
def c6Ring : List ℚ := (1/2) :: List.replicate 49 1

theorem c6_ring_reached :
    List.foldl nf_push [] ((1/2) :: List.replicate 49 1) = c6Ring := by
  rw [List.foldl_cons, nf_push_short [] (1/2) (by norm_num) (by simp),
    foldl_push_ones 49 ([] ++ [1/2]) (by simp)]
  rfl

theorem foldl_min_replicate (n : ℕ) :
    ∀ x y : ℚ, List.foldl min x (List.replicate n y) = if n = 0 then x else min x y := by
  induction n with
  | zero => intro x y; simp
  | succ m ih =>
      intro x y
      rw [List.replicate_succ, List.foldl_cons, ih]
      by_cases hm : m = 0
      · simp [hm]
      · rw [if_neg hm, if_neg (Nat.succ_ne_zero m), min_assoc, min_self]

theorem noise_floor_replicate (n : ℕ) (y : ℚ) :
    noise_floor (List.replicate (n + 1) y) = y := by
  rw [List.replicate_succ]
  simp only [noise_floor]
  rw [foldl_min_replicate]
  by_cases h : n = 0 <;> simp [h]

theorem noise_floor_c6Ring : noise_floor c6Ring = 1/2 := by
  simp only [c6Ring, noise_floor]
  rw [foldl_min_replicate]
  norm_num

theorem nf_push_c6Ring : nf_push c6Ring 1 = List.replicate 50 1 := by
  unfold nf_push
  rw [if_pos (by norm_num), if_pos (by simp [c6Ring])]
  simp only [c6Ring, List.cons_append, List.drop_one, List.tail_cons]
  conv_rhs => rw [show (50 : ℕ) = 49 + 1 from rfl, List.replicate_succ']

theorem noise_floor_replicate50 : noise_floor (List.replicate 50 (1:ℚ)) = 1 := by
  rw [show (50 : ℕ) = 49 + 1 from rfl, noise_floor_replicate]

/-- C6 counterexample: a ring reached by one above-silence RMS of 1/2
followed by 49 of 1 is full; pushing one more above-silence RMS of 1 evicts
the oldest entry 1/2 and the published noise floor rises from 1/2 to 1, so
the floor is not monotonically non-increasing across ticks. -/
theorem noise_floor_counterexample :
    List.foldl nf_push [] ((1/2) :: List.replicate 49 1) = c6Ring
  ∧ noise_floor c6Ring = 1/2
  ∧ nf_push c6Ring 1 = List.replicate 50 1
  ∧ noise_floor (nf_push c6Ring 1) = 1
  ∧ ¬(noise_floor (nf_push c6Ring 1) ≤ noise_floor c6Ring) := by
  refine ⟨c6_ring_reached, noise_floor_c6Ring, nf_push_c6Ring, ?_, ?_⟩
  · rw [nf_push_c6Ring, noise_floor_replicate50]
  · rw [nf_push_c6Ring, noise_floor_replicate50, noise_floor_c6Ring]
    norm_num

/-- C6 amended: the published noise floor is 0 while the ring is empty, it
never exceeds any RMS value currently held in the ring (it is the ring
minimum), an above-silence RMS pushed into a non-full ring is appended, and
while the ring has not yet filled a push can only lower or keep the floor.
Once the 50-entry ring overflows, evicting the oldest entry can raise the
floor, so the unconditional monotonicity of the original claim fails. -/
theorem noise_floor_spec :
    noise_floor ([] : List ℚ) = 0
  ∧ (∀ (hist : List ℚ) (x : ℚ), x ∈ hist → noise_floor hist ≤ x)
  ∧ (∀ (hist : List ℚ) (r : ℚ), r > 1/10000 → hist.length < 50 →
        nf_push hist r = hist ++ [r])
  ∧ (∀ (hist : List ℚ) (rms : ℚ), hist ≠ [] → hist.length < 50 →
        noise_floor (nf_push hist rms) ≤ noise_floor hist) :=
  ⟨rfl, noise_floor_le_mem, nf_push_short, nf_push_mono⟩

/-- Witness for C6: pushing RMS 1 onto the one-entry ring holding 1/2 keeps
the published floor from rising. -/
theorem noise_floor_spec_witness :
    noise_floor (nf_push [1/2] 1) ≤ noise_floor [1/2] :=
  noise_floor_spec.2.2.2 [1/2] 1 (by simp) (by simp)

/-! ## Spectrum bin post-processing (spectrum.rs lines 338-354) -/

/-- The FFT window size. -/
def FFT_SIZE : ℕ := 2048

/-- Magnitude to dB for one FFT bin: 20 * log10 above the 1e-10 floor,
-100 dB otherwise. -/
noncomputable def bin_db (magnitude : ℝ) : ℝ :=
  if magnitude > 1/10000000000 then 20 * Real.logb 10 magnitude else -100

/-- One emitted spectrum frame: for each of the FFT_SIZE / 2 bins, the dB
value is exponentially smoothed against the previous smoothed value with
alpha = 0.3, then clamped into [-100, 0] for emission. -/
noncomputable def spectrum_bins (smoothed : List ℝ) (mags : List ℝ) : List ℝ :=
  (List.range (FFT_SIZE / 2)).map (fun i =>
    min (max (smoothed.getD i 0 * (1 - 3/10) + bin_db (mags.getD i 0) * (3/10)) (-100)) 0)

/-- C9: every emitted spectrum frame has exactly FFT_SIZE / 2 = 1024 bins,
and every emitted bin value lies in [-100, 0], for every input magnitude
sequence and every prior smoothing state. -/
theorem spectrum_bins_spec :
    (∀ smoothed mags : List ℝ, (spectrum_bins smoothed mags).length = 1024)
  ∧ FFT_SIZE / 2 = 1024
  ∧ (∀ (smoothed mags : List ℝ) (x : ℝ), x ∈ spectrum_bins smoothed mags →
        -100 ≤ x ∧ x ≤ 0) := by
  refine ⟨?_, rfl, ?_⟩
  · intro s m
    simp [spectrum_bins, FFT_SIZE]
  · intro s m x hx
    simp only [spectrum_bins, List.mem_map] at hx
    obtain ⟨i, _, rfl⟩ := hx
    exact ⟨le_min (le_max_right _ _) (by norm_num), min_le_right _ _⟩

/-- Witness for C9: an all-silent frame against a fresh smoothing state emits
bin values of -30 dB, inside [-100, 0]. -/
theorem spectrum_bins_spec_witness : -100 ≤ (-30 : ℝ) ∧ (-30 : ℝ) ≤ 0 := by
  refine spectrum_bins_spec.2.2 [] [] (-30) ?_
  simp only [spectrum_bins, List.mem_map]
  refine ⟨0, List.mem_range.mpr (by norm_num [FFT_SIZE]), ?_⟩
  norm_num [bin_db, max_def, min_def]
